import Mathlib

set_option maxHeartbeats 1000000

namespace Ghl

/-- JavaScript runtime values that can appear in a node configuration field or
inside a scenario expectation: strings, (integer) numbers, booleans, null and
undefined. -/
inductive RawValue where
  | str (s : String)
  | num (n : Int)
  | boolV (b : Bool)
  | nullV
  | undefV
deriving DecidableEq, Repr

/-- JavaScript coercion String(value), restricted to the values of RawValue. -/
def rawToString : RawValue → String
  | .str s => s
  | .num n => toString n
  | .boolV true => "true"
  | .boolV false => "false"
  | .nullV => "null"
  | .undefV => "undefined"

/-- The embedding of the JavaScript string trim operation: strip whitespace
from both ends. -/
def jsTrim (s : String) : String :=
  String.mk
    (((s.data.dropWhile Char.isWhitespace).reverse.dropWhile
      Char.isWhitespace).reverse)

/-- Presence test for a required configuration field, from
src/components/NodeInspector.tsx (isFieldMissing): a value is missing when it
is undefined or null, or when it is a string that trims to the empty string;
any other value counts as present. -/
def isFieldMissing : RawValue → Bool
  | .undefV => true
  | .nullV => true
  | .str s => (jsTrim s).length == 0
  | .num _ => false
  | .boolV _ => false

/-- Requirement descriptors, from the requirement kinds dispatched by
src/components/ModuleShell.tsx (formatRequirementSummary); unknownKind carries
the type tag of any requirement outside the catalogued ten. -/
inductive Requirement where
  | triggerIs (value : String)
  | triggerConfigEquals (field : String) (value : RawValue)
  | mustHaveNode (value : String)
  | forbidNodeType (value : String)
  | nodeConfigRequired (nodeType : String) (fields : List String)
  | nodeOrder (sequence : List String)
  | mustContainIfElse (minCount : Option Nat)
  | branchCountAtLeast (count : Nat)
  | pathMustInclude (nodeTypes : List String)
  | requireStopPath
  | unknownKind (tag : String)
deriving DecidableEq, Repr

/-- The string stored in the requirement's type field. -/
def Requirement.typeName : Requirement → String
  | .triggerIs _ => "triggerIs"
  | .triggerConfigEquals _ _ => "triggerConfigEquals"
  | .mustHaveNode _ => "mustHaveNode"
  | .forbidNodeType _ => "forbidNodeType"
  | .nodeConfigRequired _ _ => "nodeConfigRequired"
  | .nodeOrder _ => "nodeOrder"
  | .mustContainIfElse _ => "mustContainIfElse"
  | .branchCountAtLeast _ => "branchCountAtLeast"
  | .pathMustInclude _ => "pathMustInclude"
  | .requireStopPath => "requireStopPath"
  | .unknownKind tag => tag

/-- The ten catalogued requirement type tags. -/
def catalogTags : List String :=
  ["triggerIs", "triggerConfigEquals", "mustHaveNode", "forbidNodeType",
   "nodeConfigRequired", "nodeOrder", "mustContainIfElse", "branchCountAtLeast",
   "pathMustInclude", "requireStopPath"]

/-- One-line requirement summary, from src/components/ModuleShell.tsx
(formatRequirementSummary); gdn stands for the external getNodeDisplayName
catalog function. -/
def formatRequirementSummary (gdn : String → String) : Requirement → String
  | .triggerIs value => "Trigger is " ++ gdn value
  | .triggerConfigEquals field value =>
      "Trigger field " ++ field ++ " equals " ++ rawToString value
  | .mustHaveNode value => "Includes " ++ gdn value
  | .forbidNodeType value => "Does not include " ++ gdn value
  | .nodeConfigRequired nodeType fields =>
      gdn nodeType ++ " has " ++ String.intercalate ", " fields
  | .nodeOrder sequence =>
      "Order: " ++ String.intercalate " -> " (sequence.map gdn)
  | .mustContainIfElse minCount =>
      "Has at least " ++ toString (minCount.getD 1) ++ " If/Else step"
  | .branchCountAtLeast count =>
      "If/Else has at least " ++ toString count ++ " paths"
  | .pathMustInclude nodeTypes =>
      "Includes " ++ String.intercalate ", " (nodeTypes.map gdn)
  | .requireStopPath => "Each path ends when there are no more steps"
  | .unknownKind _ => "Requirement"

/-- One expected message assertion: channel plus substrings the body must
contain. -/
structure ExpectedMessage where
  channel : String
  contains : List String
deriving DecidableEq, Repr

/-- One expected field-equality assertion. -/
structure FieldEqualExpectation where
  fieldKey : String
  value : RawValue
deriving DecidableEq, Repr

/-- One expected task or notification assertion: substrings its text must
contain. -/
structure ContainsExpectation where
  contains : List String
deriving DecidableEq, Repr

/-- One expected webhook assertion: substrings its URL must contain. -/
structure WebhookExpectation where
  urlContains : List String
deriving DecidableEq, Repr

/-- The expected-outcome set of one test case; arrays the source reads with
optional chaining are modelled as plain lists, an absent array being the
empty list. -/
structure ExpectedOutcomes where
  messages : List ExpectedMessage
  tagsAdded : List String
  tagsRemoved : List String
  fieldsEqual : List FieldEqualExpectation
  tasksCreated : List ContainsExpectation
  systemTasksCreated : List ContainsExpectation
  notifications : List ContainsExpectation
  systemNotifications : List ContainsExpectation
  webhooksFired : List WebhookExpectation
deriving DecidableEq, Repr

/-- One named test case. -/
structure TestCase where
  name : String
  expect : ExpectedOutcomes
deriving DecidableEq, Repr

/-- Node types a scenario allows, per palette group. -/
structure AllowedNodes where
  triggers : List String
  actions : List String
  logic : List String
deriving DecidableEq, Repr

/-- A single-workflow scenario definition. -/
structure SingleScenario where
  moduleId : String
  title : String
  objectives : List String
  allowedNodes : AllowedNodes
  requirements : List Requirement
  testCases : List TestCase
deriving DecidableEq, Repr

/-- One workflow inside a multi-workflow bundle. -/
structure WorkflowEntry where
  workflowId : String
  scenario : SingleScenario
deriving DecidableEq, Repr

/-- A multi-workflow bundle scenario (the variant the source detects with the
test "workflows" in scenario). -/
structure MultiScenario where
  moduleId : String
  title : String
  workflows : List WorkflowEntry
deriving DecidableEq, Repr

/-- A scenario definition: either a single workflow or a bundle. -/
inductive ScenarioDefinition where
  | single (s : SingleScenario)
  | bundle (b : MultiScenario)
deriving DecidableEq, Repr

/-- The singleTriggerMode memo of src/components/ModuleShell.tsx: false with
no scenario or a bundle, otherwise whether some requirement has type
triggerIs. -/
def singleTriggerMode : Option ScenarioDefinition → Bool
  | none => false
  | some (.bundle _) => false
  | some (.single s) =>
      s.requirements.any (fun requirement => requirement.typeName == "triggerIs")

/-- A single-workflow scenario with no triggerIs requirement, used to probe
singleTriggerMode. -/
def scenarioNoTriggerReq : SingleScenario :=
  { moduleId := "m-demo"
    title := "Demo"
    objectives := []
    allowedNodes := { triggers := [], actions := [], logic := [] }
    requirements := [Requirement.mustHaveNode "sms.send"]
    testCases := [] }

/-- One expected-field hint shown next to a builder field. -/
structure ExpectedFieldHint where
  label : String
  values : List String
  note : Option String
deriving DecidableEq, Repr

/-- A hint key: node type paired with field key. -/
abbrev HintKey := String × String

/-- The nested hints object of buildExpectedFieldHints, modelled as an
association list in which a later binding shadows earlier ones; the
JavaScript object is observed only through lookupHint. -/
abbrev HintsMap := List (HintKey × ExpectedFieldHint)

/-- Reads the hint stored for one node type and field key. -/
def lookupHint (hints : HintsMap) (k : HintKey) : Option ExpectedFieldHint :=
  (hints.find? (fun e => e.1 == k)).map (·.2)

/-- Appends a value unless it is already present; folding this models
insertion into a JavaScript Set, which keeps first occurrences in insertion
order. -/
def insertDedup (seen : List String) (value : String) : List String :=
  if value ∈ seen then seen else seen ++ [value]

/-- Removes duplicates keeping the first occurrence of each value, the order
Array.from(new Set(values)) produces. -/
def dedupFirst (values : List String) : List String :=
  values.foldl insertDedup []

/-- The cleaning pipeline of collectHint: drop null and undefined, stringify,
drop strings that trim to nothing. -/
def cleanValues (values : List RawValue) : List String :=
  ((values.filter (fun value => !(value == RawValue.nullV) && !(value == RawValue.undefV))).map
    rawToString).filter (fun value => (jsTrim value).length > 0)

/-- First-some choice on optional strings, the ?? operator of JavaScript. -/
def optOr (a b : Option String) : Option String :=
  match a with
  | some x => some x
  | none => b

/-- collectHint from buildExpectedFieldHints in src/components/ModuleShell.tsx:
clean the incoming values, skip the update when nothing is left, otherwise
merge into the existing hint through a Set and keep the existing note when it
is defined. -/
def collectHint (hints : HintsMap) (nodeType fieldKey label : String)
    (values : List RawValue) (note : Option String) : HintsMap :=
  let cleaned := cleanValues values
  if cleaned.isEmpty then hints
  else
    let existing := lookupHint hints (nodeType, fieldKey)
    let merged := dedupFirst (((existing.map (·.values)).getD []) ++ cleaned)
    ((nodeType, fieldKey),
      { label := label
        values := merged
        note := optOr (existing.bind (·.note)) note }) :: hints

/-- The per-message part of buildExpectedFieldHints: an sms message feeds the
sms body hint, an email message feeds the email body and subject hints. -/
def processMessage (hints : HintsMap) (message : ExpectedMessage) : HintsMap :=
  let hints :=
    if message.channel == "sms" then
      collectHint hints "sms.send" "body" "Expected text to include"
        (message.contains.map RawValue.str)
        (some "Use these words somewhere in the SMS.")
    else hints
  if message.channel == "email" then
    collectHint
      (collectHint hints "email.send" "body" "Expected text to include"
        (message.contains.map RawValue.str)
        (some "Use these words somewhere in the email."))
      "email.send" "subject" "Suggested keyword"
      (message.contains.map RawValue.str)
      (some "Short is ok. Use a key word from the body.")
  else hints

/-- The per-test-case body of buildExpectedFieldHints, collecting hints for
each expectation group in source order. -/
def processTestCase (hints : HintsMap) (testCase : TestCase) : HintsMap :=
  let e := testCase.expect
  let hints := e.messages.foldl processMessage hints
  let hints :=
    if e.tagsAdded.length != 0 then
      collectHint hints "tag.add" "tag" "Expected tag"
        (e.tagsAdded.map RawValue.str) none
    else hints
  let hints :=
    if e.tagsRemoved.length != 0 then
      collectHint hints "tag.remove" "tag" "Expected tag to remove"
        (e.tagsRemoved.map RawValue.str) none
    else hints
  let hints :=
    if e.fieldsEqual.length != 0 then
      collectHint
        (collectHint hints "field.update" "fieldKey" "Expected field name"
          (e.fieldsEqual.map (fun item => RawValue.str item.fieldKey)) none)
        "field.update" "value" "Expected value"
        (e.fieldsEqual.map (·.value)) none
    else hints
  let hints :=
    if e.tasksCreated.length != 0 then
      e.tasksCreated.foldl (fun h task =>
        collectHint h "task.create" "title" "Expected words"
          (task.contains.map RawValue.str) none) hints
    else hints
  let hints :=
    if e.systemTasksCreated.length != 0 then
      e.systemTasksCreated.foldl (fun h task =>
        collectHint h "task.create" "title" "Expected words"
          (task.contains.map RawValue.str) none) hints
    else hints
  let hints :=
    if e.notifications.length != 0 then
      e.notifications.foldl (fun h n =>
        collectHint h "user.notify" "message" "Expected words"
          (n.contains.map RawValue.str) none) hints
    else hints
  let hints :=
    if e.systemNotifications.length != 0 then
      e.systemNotifications.foldl (fun h n =>
        collectHint h "user.notify" "message" "Expected words"
          (n.contains.map RawValue.str) none) hints
    else hints
  if e.webhooksFired.length != 0 then
    e.webhooksFired.foldl (fun h w =>
      collectHint h "webhook.send" "url" "Expected URL contains"
        (w.urlContains.map RawValue.str) none) hints
  else hints

/-- buildExpectedFieldHints from src/components/ModuleShell.tsx: empty for a
missing scenario or a bundle, otherwise the fold of the per-test-case
collection over an empty hints object. -/
def buildExpectedFieldHints : Option ScenarioDefinition → HintsMap
  | none => []
  | some (.bundle _) => []
  | some (.single s) => s.testCases.foldl processTestCase []

/-- One collectHint call: its target key, label, raw values and note. -/
structure Contribution where
  nodeType : String
  fieldKey : String
  label : String
  values : List RawValue
  note : Option String
deriving DecidableEq, Repr

/-- The key a contribution is stored under. -/
def Contribution.key (c : Contribution) : HintKey := (c.nodeType, c.fieldKey)

/-- Replays one contribution through collectHint. -/
def applyContrib (hints : HintsMap) (c : Contribution) : HintsMap :=
  collectHint hints c.nodeType c.fieldKey c.label c.values c.note

/-- The collectHint calls one expected message produces, in call order. -/
def msgContribs (message : ExpectedMessage) : List Contribution :=
  (if message.channel == "sms" then
    [{ nodeType := "sms.send", fieldKey := "body", label := "Expected text to include"
       values := message.contains.map RawValue.str
       note := some "Use these words somewhere in the SMS." }]
  else [])
  ++ (if message.channel == "email" then
    [{ nodeType := "email.send", fieldKey := "body", label := "Expected text to include"
       values := message.contains.map RawValue.str
       note := some "Use these words somewhere in the email." },
     { nodeType := "email.send", fieldKey := "subject", label := "Suggested keyword"
       values := message.contains.map RawValue.str
       note := some "Short is ok. Use a key word from the body." }]
  else [])

/-- The collectHint calls one test case produces, in call order; groups the
source skips on an empty array appear here with empty values, which
collectHint ignores. -/
def tcContribs (testCase : TestCase) : List Contribution :=
  let e := testCase.expect
  e.messages.flatMap msgContribs
  ++ [{ nodeType := "tag.add", fieldKey := "tag", label := "Expected tag"
        values := e.tagsAdded.map RawValue.str, note := none }]
  ++ [{ nodeType := "tag.remove", fieldKey := "tag", label := "Expected tag to remove"
        values := e.tagsRemoved.map RawValue.str, note := none }]
  ++ [{ nodeType := "field.update", fieldKey := "fieldKey", label := "Expected field name"
        values := e.fieldsEqual.map (fun item => RawValue.str item.fieldKey), note := none }]
  ++ [{ nodeType := "field.update", fieldKey := "value", label := "Expected value"
        values := e.fieldsEqual.map (·.value), note := none }]
  ++ e.tasksCreated.map (fun task =>
      { nodeType := "task.create", fieldKey := "title", label := "Expected words"
        values := task.contains.map RawValue.str, note := none })
  ++ e.systemTasksCreated.map (fun task =>
      { nodeType := "task.create", fieldKey := "title", label := "Expected words"
        values := task.contains.map RawValue.str, note := none })
  ++ e.notifications.map (fun n =>
      { nodeType := "user.notify", fieldKey := "message", label := "Expected words"
        values := n.contains.map RawValue.str, note := none })
  ++ e.systemNotifications.map (fun n =>
      { nodeType := "user.notify", fieldKey := "message", label := "Expected words"
        values := n.contains.map RawValue.str, note := none })
  ++ e.webhooksFired.map (fun w =>
      { nodeType := "webhook.send", fieldKey := "url", label := "Expected URL contains"
        values := w.urlContains.map RawValue.str, note := none })

/-- The values the specification routes to one node-type/field-key pair for a
single test case: sms message texts to the sms body, email message texts to
the email body and subject, tags to the tag fields, field updates to field
key and value, tasks (plain and system) to the task title, notifications
(plain and system) to the notification message, webhooks to the webhook
URL. -/
def routedValues (testCase : TestCase) (k : HintKey) : List RawValue :=
  let e := testCase.expect
  if k = ("sms.send", "body") then
    ((e.messages.filter (fun m => m.channel == "sms")).flatMap (·.contains)).map RawValue.str
  else if k = ("email.send", "body") then
    ((e.messages.filter (fun m => m.channel == "email")).flatMap (·.contains)).map RawValue.str
  else if k = ("email.send", "subject") then
    ((e.messages.filter (fun m => m.channel == "email")).flatMap (·.contains)).map RawValue.str
  else if k = ("tag.add", "tag") then
    e.tagsAdded.map RawValue.str
  else if k = ("tag.remove", "tag") then
    e.tagsRemoved.map RawValue.str
  else if k = ("field.update", "fieldKey") then
    e.fieldsEqual.map (fun item => RawValue.str item.fieldKey)
  else if k = ("field.update", "value") then
    e.fieldsEqual.map (·.value)
  else if k = ("task.create", "title") then
    ((e.tasksCreated ++ e.systemTasksCreated).flatMap (·.contains)).map RawValue.str
  else if k = ("user.notify", "message") then
    ((e.notifications ++ e.systemNotifications).flatMap (·.contains)).map RawValue.str
  else if k = ("webhook.send", "url") then
    (e.webhooksFired.flatMap (·.urlContains)).map RawValue.str
  else []

/-- The values list stored for a key, the empty list when no hint is there. -/
def hintValues (hints : HintsMap) (k : HintKey) : List String :=
  ((lookupHint hints k).map (·.values)).getD []

/-- The note stored for a key, when a hint with a note is there. -/
def hintNote (hints : HintsMap) (k : HintKey) : Option String :=
  (lookupHint hints k).bind (·.note)

/-- The contributions aimed at one key. -/
def contribsAt (cs : List Contribution) (k : HintKey) : List Contribution :=
  cs.filter (fun c => c.key == k)

/-- The raw values all contributions aimed at one key carry, in order. -/
def contribsValuesAt (cs : List Contribution) (k : HintKey) : List RawValue :=
  (contribsAt cs k).flatMap (·.values)

/-- The first note among the effective contributions aimed at one key (those
whose cleaned values are nonempty). -/
def effectiveNoteAt (cs : List Contribution) (k : HintKey) : Option String :=
  ((contribsAt cs k).filter (fun c => !(cleanValues c.values).isEmpty)).findSome? (·.note)

/-- A hints map is dedup-normal when every stored values list is a fixed
point of dedupFirst; collectHint only ever stores such lists. -/
def ValuesNormal (hints : HintsMap) : Prop :=
  ∀ k h, lookupHint hints k = some h → dedupFirst h.values = h.values

/-- A test case expecting an sms containing Welcome plus one added tag. -/
def demoTestCaseA : TestCase :=
  { name := "has phone"
    expect :=
      { messages := [{ channel := "sms", contains := ["Welcome"] }]
        tagsAdded := ["vip"]
        tagsRemoved := []
        fieldsEqual := []
        tasksCreated := []
        systemTasksCreated := []
        notifications := []
        systemNotifications := []
        webhooksFired := [] } }

/-- A second test case repeating the Welcome text (a duplicate) next to a
whitespace-only text, and repeating one tag. -/
def demoTestCaseB : TestCase :=
  { name := "second"
    expect :=
      { messages := [{ channel := "sms", contains := ["Welcome", "  "] }]
        tagsAdded := ["vip", "new"]
        tagsRemoved := []
        fieldsEqual := []
        tasksCreated := []
        systemTasksCreated := []
        notifications := []
        systemNotifications := []
        webhooksFired := [] } }

/-- A single-workflow scenario whose two test cases overlap on the sms body
hint. -/
def demoHintScenario : SingleScenario :=
  { moduleId := "m-hints"
    title := "Hints demo"
    objectives := []
    allowedNodes := { triggers := [], actions := [], logic := [] }
    requirements := []
    testCases := [demoTestCaseA, demoTestCaseB] }

/-- The sms body hint the demo scenario produces. -/
def demoSmsHint : ExpectedFieldHint :=
  { label := "Expected text to include"
    values := ["Welcome"]
    note := some "Use these words somewhere in the SMS." }

/-- Status of a module in the learner's progress. -/
inductive ModuleStatus where
  | locked
  | available
  | completed
deriving DecidableEq, Repr

/-- Validate and simulate attempt counters of one module. -/
structure AttemptCounts where
  validate : Nat
  simulate : Nat
deriving DecidableEq, Repr

/-- Progress record of one module. -/
structure ModuleProgress where
  status : ModuleStatus
  attempts : AttemptCounts
  teachBack : String
deriving DecidableEq, Repr

/-- The modules object of a ProgressState, modelled as an association list in
which a later binding shadows earlier ones; the JavaScript object is observed
only through lookupModule. -/
abbrev ProgressModules := List (String × ModuleProgress)

/-- Reads one module record, the latest binding winning. -/
def lookupModule (modules : ProgressModules) (moduleId : String) :
    Option ModuleProgress :=
  (modules.find? (fun e => e.1 == moduleId)).map (·.2)

/-- One entry of the module manifest. -/
structure ModuleManifestEntry where
  moduleId : String
  title : String
  phase : String
deriving DecidableEq, Repr

/-- The record buildDefaultProgress stores for every manifest module. -/
def defaultModuleProgress : ModuleProgress :=
  { status := .available
    attempts := { validate := 0, simulate := 0 }
    teachBack := "" }

/-- buildDefaultProgress from src/contexts/ProgressContext.tsx: every manifest
module starts available with zero attempts and empty teach-back text. -/
def buildDefaultProgress (manifest : List ModuleManifestEntry) : ProgressModules :=
  manifest.foldl
    (fun modules entry => (entry.moduleId, defaultModuleProgress) :: modules) []

/-- A saved per-module record parsed back from localStorage; each field may be
absent in the parsed JSON. -/
structure SavedModuleProgress where
  status : Option ModuleStatus
  attempts : Option AttemptCounts
  teachBack : Option String
deriving DecidableEq, Repr

/-- A saved progress state parsed back from localStorage; the modules object
itself may be absent. -/
structure SavedProgressState where
  modules : Option (List (String × SavedModuleProgress))
deriving DecidableEq, Repr

/-- Reads one saved module record through the optional chain
saved.modules?.[moduleId]. -/
def lookupSavedModule (modules : Option (List (String × SavedModuleProgress)))
    (moduleId : String) : Option SavedModuleProgress :=
  modules.bind (fun l => (l.find? (fun e => e.1 == moduleId)).map (·.2))

/-- Reads one saved module record from an optional saved state. -/
def lookupSavedEntry (saved : Option SavedProgressState) (moduleId : String) :
    Option SavedModuleProgress :=
  saved.bind (fun s => lookupSavedModule s.modules moduleId)

/-- The record mergeProgress stores for a manifest entry that has a saved
record: a saved locked status becomes available, and missing saved fields fall
back to the baseline status, the baseline attempts and the empty string. -/
def mergeSavedModule (baselineEntry : ModuleProgress)
    (savedModule : SavedModuleProgress) : ModuleProgress :=
  let savedStatus : Option ModuleStatus :=
    match savedModule.status with
    | some .locked => some .available
    | s => s
  { status := savedStatus.getD baselineEntry.status
    attempts := savedModule.attempts.getD baselineEntry.attempts
    teachBack := savedModule.teachBack.getD "" }

/-- mergeProgress from src/contexts/ProgressContext.tsx. The baseline holds
every manifest id, so the defaultModuleProgress fallback of the baseline
lookup is never reached. -/
def mergeProgress (manifest : List ModuleManifestEntry)
    (saved : Option SavedProgressState) : ProgressModules :=
  let baseline := buildDefaultProgress manifest
  match saved with
  | none => baseline
  | some saved =>
      manifest.foldl (fun merged entry =>
        match lookupSavedModule saved.modules entry.moduleId with
        | none => merged
        | some savedModule =>
            (entry.moduleId,
              mergeSavedModule
                ((lookupModule baseline entry.moduleId).getD defaultModuleProgress)
                savedModule) :: merged) baseline

/-- updateModule from src/contexts/ProgressContext.tsx: apply the updater when
the module exists, otherwise leave the state unchanged. -/
def updateModule (modules : ProgressModules) (moduleId : String)
    (updater : ModuleProgress → ModuleProgress) : ProgressModules :=
  match lookupModule modules moduleId with
  | none => modules
  | some existing => (moduleId, updater existing) :: modules

/-- unlockModule from src/contexts/ProgressContext.tsx: a locked module
becomes available, any other status is left as it is. -/
def unlockModule (modules : ProgressModules) (moduleId : String) : ProgressModules :=
  updateModule modules moduleId (fun current =>
    if current.status ≠ .locked then current
    else { current with status := .available })

/-- markCompleted from src/contexts/ProgressContext.tsx, with moduleOrder the
list of manifest module ids; List.indexOf returns the length when the id is
absent, which fails the bound check just as the -1 of JavaScript does. -/
def markCompleted (moduleOrder : List String) (modules : ProgressModules)
    (moduleId : String) : ProgressModules :=
  let modules := updateModule modules moduleId
    (fun current => { current with status := .completed })
  let index := moduleOrder.indexOf moduleId
  if index < moduleOrder.length - 1 then
    match moduleOrder[index + 1]? with
    | some nextId => unlockModule modules nextId
    | none => modules
  else modules

/-- markValidateAttempt from src/contexts/ProgressContext.tsx. -/
def markValidateAttempt (modules : ProgressModules) (moduleId : String) :
    ProgressModules :=
  updateModule modules moduleId (fun current =>
    { current with attempts :=
        { current.attempts with validate := current.attempts.validate + 1 } })

/-- markSimulateAttempt from src/contexts/ProgressContext.tsx. -/
def markSimulateAttempt (modules : ProgressModules) (moduleId : String) :
    ProgressModules :=
  updateModule modules moduleId (fun current =>
    { current with attempts :=
        { current.attempts with simulate := current.attempts.simulate + 1 } })

/-- The manifest successor of a module id: the id right after the first
occurrence of moduleId in moduleOrder, when moduleId occurs and is not
last. -/
def successorOf (moduleOrder : List String) (moduleId : String) : Option String :=
  let index := moduleOrder.indexOf moduleId
  if index < moduleOrder.length - 1 then moduleOrder[index + 1]? else none

/-- A two-module manifest order used in concrete probes. -/
def demoOrder : List String := ["m1", "m2"]

/-- A still-locked module record. -/
def lockedModuleProgress : ModuleProgress :=
  { status := .locked, attempts := { validate := 0, simulate := 0 }, teachBack := "" }

/-- A progress state that holds only a locked second module. -/
def demoModulesLockedNext : ProgressModules := [("m2", lockedModuleProgress)]

/-- A two-entry manifest used in concrete probes. -/
def demoManifest : List ModuleManifestEntry :=
  [{ moduleId := "m1", title := "Module one", phase := "Phase 1" },
   { moduleId := "m2", title := "Module two", phase := "Phase 1" }]

/-- A saved state holding a locked record for m1 and a record for a module
that is not in the manifest. -/
def demoSavedState : SavedProgressState :=
  { modules := some
      [("m1", { status := some .locked
                attempts := some { validate := 3, simulate := 1 }
                teachBack := some "notes" }),
       ("zz", { status := some .completed, attempts := none, teachBack := none })] }

/-- A progress state holding one available module with some attempts. -/
def demoProgressState : ProgressModules :=
  [("m1", { status := .available
            attempts := { validate := 2, simulate := 5 }
            teachBack := "draft" })]

/-- Modelled from the spec: the effect records of one simulation run (the
Execution Simulator is not under src/); each record is a tagged variant
mirroring the expected-outcome kinds and carries the concrete values resolved
from the executing node's configuration. -/
inductive EffectRecord where
  | messageSent (channel body : String)
  | tagAdded (tag : String)
  | tagRemoved (tag : String)
  | fieldSet (fieldKey value : String)
  | taskCreated (title : String)
  | notificationSent (message : String)
  | webhookFired (url : String)
deriving DecidableEq, Repr

/-- Modelled from the spec: one expected-outcome assertion of a test case
(the Outcome Comparator is not under src/): message sends assert a channel
plus body substrings, tags added or removed and field updates assert
equality, tasks, notifications and webhooks assert substrings of their
title, message and URL. -/
inductive ExpectedAssertion where
  | message (channel : String) (contains : List String)
  | tagAdded (tag : String)
  | tagRemoved (tag : String)
  | fieldEquals (fieldKey value : String)
  | taskCreated (contains : List String)
  | notificationSent (contains : List String)
  | webhookFired (urlContains : List String)
deriving DecidableEq, Repr

/-- Substring test over the character lists: needle occurs somewhere inside
hay. -/
def strContainsSub (hay needle : String) : Bool :=
  (List.range (hay.data.length + 1)).any
    (fun i => needle.data.isPrefixOf (hay.data.drop i))

/-- Modelled from the spec: whether one expected assertion matches one trace
record of the correct kind, with the substring and equality rules of the
data model. -/
def assertionMatches (a : ExpectedAssertion) (r : EffectRecord) : Bool :=
  match a, r with
  | .message channel contains, .messageSent channel2 body =>
      channel == channel2 && contains.all (fun c => strContainsSub body c)
  | .tagAdded tag, .tagAdded tag2 => tag == tag2
  | .tagRemoved tag, .tagRemoved tag2 => tag == tag2
  | .fieldEquals fieldKey value, .fieldSet fieldKey2 value2 =>
      fieldKey == fieldKey2 && value == value2
  | .taskCreated contains, .taskCreated title =>
      contains.all (fun c => strContainsSub title c)
  | .notificationSent contains, .notificationSent message =>
      contains.all (fun c => strContainsSub message c)
  | .webhookFired urlContains, .webhookFired url =>
      urlContains.all (fun c => strContainsSub url c)
  | _, _ => false

/-- Modelled from the spec: one per-assertion row of the comparison result. -/
structure AssertionResult where
  assertion : ExpectedAssertion
  found : Bool
deriving DecidableEq, Repr

/-- Modelled from the spec: the comparison result enumerates, per expected
assertion, whether a matching record was found, plus the overall pass
flag. -/
structure ComparisonResult where
  results : List AssertionResult
  passed : Bool
deriving DecidableEq, Repr

/-- Modelled from the spec: compare(trace, expectedOutcomes) checks each
expected assertion against the recorded effect trace and passes iff every
row found a match. -/
def compareOutcomes (trace : List EffectRecord)
    (expected : List ExpectedAssertion) : ComparisonResult :=
  let results := expected.map (fun a =>
    { assertion := a, found := trace.any (fun r => assertionMatches a r) })
  { results := results, passed := results.all (·.found) }

/-- A one-record trace: an sms whose body contains Welcome. -/
def demoTrace : List EffectRecord :=
  [EffectRecord.messageSent "sms" "Welcome aboard"]

/-- One expected sms assertion matched by the demo trace. -/
def demoExpected : List ExpectedAssertion :=
  [ExpectedAssertion.message "sms" ["Welcome"]]

/-- An extra effect no assertion expects. -/
def demoExtraTrace : List EffectRecord :=
  [EffectRecord.tagAdded "vip"]

end Ghl

namespace Ghl

/-- Reading a freshly written binding returns it; other keys fall through. -/
theorem lookupModule_cons (k : String) (p : ModuleProgress)
    (modules : ProgressModules) (id : String) :
    lookupModule ((k, p) :: modules) id =
      if k = id then some p else lookupModule modules id := by
  simp only [lookupModule, List.find?_cons]
  by_cases h : k = id
  · subst h; simp
  · have hb : (k == id) = false := beq_eq_false_iff_ne.mpr h
    simp [hb, h]

/-- updateModule of an absent module is the identity. -/
theorem updateModule_absent (modules : ProgressModules) (id : String)
    (f : ModuleProgress → ModuleProgress) (h : lookupModule modules id = none) :
    updateModule modules id f = modules := by
  simp [updateModule, h]

/-- updateModule applies the updater at the touched module. -/
theorem lookupModule_updateModule_self (modules : ProgressModules) (id : String)
    (f : ModuleProgress → ModuleProgress) (p : ModuleProgress)
    (h : lookupModule modules id = some p) :
    lookupModule (updateModule modules id f) id = some (f p) := by
  simp [updateModule, h, lookupModule_cons]

/-- updateModule leaves every other module unchanged. -/
theorem lookupModule_updateModule_other (modules : ProgressModules) (id : String)
    (f : ModuleProgress → ModuleProgress) (other : String) (h : other ≠ id) :
    lookupModule (updateModule modules id f) other = lookupModule modules other := by
  cases hl : lookupModule modules id with
  | none => simp [updateModule, hl]
  | some p =>
      have hne : id ≠ other := fun e => h e.symm
      simp [updateModule, hl, lookupModule_cons, hne]

/-- unlockModule turns a locked module available and leaves any other status
as it is. -/
theorem lookupModule_unlockModule_self (modules : ProgressModules) (id : String)
    (q : ModuleProgress) (h : lookupModule modules id = some q) :
    lookupModule (unlockModule modules id) id =
      some (if q.status = .locked then { q with status := .available } else q) := by
  have := lookupModule_updateModule_self modules id
    (fun current =>
      if current.status ≠ .locked then current
      else { current with status := .available }) q h
  rw [unlockModule, this]
  by_cases hs : q.status = .locked <;> simp [hs]

/-- unlockModule leaves every other module unchanged. -/
theorem lookupModule_unlockModule_other (modules : ProgressModules) (id : String)
    (other : String) (h : other ≠ id) :
    lookupModule (unlockModule modules id) other = lookupModule modules other :=
  lookupModule_updateModule_other modules id _ other h

/-- Reading a freshly written hint binding returns it; other keys fall
through. -/
theorem lookupHint_cons (k0 : HintKey) (h0 : ExpectedFieldHint)
    (hints : HintsMap) (k : HintKey) :
    lookupHint ((k0, h0) :: hints) k =
      if k0 = k then some h0 else lookupHint hints k := by
  simp only [lookupHint, List.find?_cons]
  by_cases h : k0 = k
  · subst h; simp
  · have hb : (k0 == k) = false := beq_eq_false_iff_ne.mpr h
    simp [hb, h]

/-- Membership in a fold of Set insertions. -/
theorem mem_foldl_insertDedup (l : List String) (acc : List String) (x : String) :
    x ∈ l.foldl insertDedup acc ↔ x ∈ acc ∨ x ∈ l := by
  induction l generalizing acc with
  | nil => simp
  | cons a as ih =>
      simp only [List.foldl_cons]
      rw [ih]
      unfold insertDedup
      by_cases h : a ∈ acc
      · simp only [if_pos h, List.mem_cons]
        constructor
        · rintro (hc | hc) <;> tauto
        · rintro (hc | hc | hc)
          · tauto
          · subst hc; tauto
          · tauto
      · simp only [if_neg h, List.mem_append, List.mem_singleton, List.mem_cons]
        constructor
        · rintro ((hc | hc) | hc) <;> tauto
        · rintro (hc | hc | hc) <;> tauto

/-- A fold of Set insertions keeps the accumulator duplicate-free. -/
theorem nodup_foldl_insertDedup (l : List String) :
    ∀ acc : List String, acc.Nodup → (l.foldl insertDedup acc).Nodup := by
  induction l with
  | nil => intro acc h; exact h
  | cons a as ih =>
      intro acc h
      simp only [List.foldl_cons]
      apply ih
      unfold insertDedup
      by_cases ha : a ∈ acc
      · simpa [ha] using h
      · rw [if_neg ha]
        refine List.Nodup.append h (List.nodup_singleton a) ?_
        intro x hx hx2
        rw [List.mem_singleton] at hx2
        subst hx2
        exact ha hx

/-- dedupFirst output has no duplicates. -/
theorem dedupFirst_nodup (l : List String) : (dedupFirst l).Nodup :=
  nodup_foldl_insertDedup l [] List.nodup_nil

/-- dedupFirst keeps exactly the values of its input. -/
theorem mem_dedupFirst (l : List String) (x : String) :
    x ∈ dedupFirst l ↔ x ∈ l := by
  rw [dedupFirst, mem_foldl_insertDedup]
  simp

/-- Folding Set insertions over a duplicate-free list of fresh values appends
it to the accumulator. -/
theorem foldl_insertDedup_of_nodup (l : List String) :
    ∀ acc : List String, l.Nodup → (∀ x ∈ l, x ∉ acc) →
      l.foldl insertDedup acc = acc ++ l := by
  induction l with
  | nil => intro acc _ _; simp
  | cons a as ih =>
      intro acc hnd hfresh
      have ha : a ∉ acc := hfresh a (by simp)
      simp only [List.foldl_cons]
      rw [show insertDedup acc a = acc ++ [a] from by simp [insertDedup, ha]]
      rw [ih (acc ++ [a]) (List.nodup_cons.mp hnd).2 ?_]
      · simp
      · intro x hx
        simp only [List.mem_append, List.mem_singleton]
        rintro (hc | hc)
        · exact hfresh x (by simp [hx]) hc
        · subst hc
          exact (List.nodup_cons.mp hnd).1 hx

/-- dedupFirst is idempotent. -/
theorem dedupFirst_idem (l : List String) :
    dedupFirst (dedupFirst l) = dedupFirst l := by
  rw [show dedupFirst (dedupFirst l) = (dedupFirst l).foldl insertDedup [] from rfl]
  rw [foldl_insertDedup_of_nodup _ [] (dedupFirst_nodup l) (by simp)]
  simp

/-- Re-dedup of an already dedup-ed prefix changes nothing. -/
theorem dedupFirst_append_left (a b : List String) :
    dedupFirst (dedupFirst a ++ b) = dedupFirst (a ++ b) := by
  show List.foldl insertDedup [] (dedupFirst a ++ b) =
    List.foldl insertDedup [] (a ++ b)
  rw [List.foldl_append, List.foldl_append]
  congr 1
  exact dedupFirst_idem a

/-- The cleaning pipeline on the empty list. -/
theorem cleanValues_nil : cleanValues [] = [] := rfl

/-- The cleaning pipeline distributes over append. -/
theorem cleanValues_append (a b : List RawValue) :
    cleanValues (a ++ b) = cleanValues a ++ cleanValues b := by
  simp [cleanValues, List.filter_append, List.map_append]

/-- Every cleaned value has a nonempty trim. -/
theorem mem_cleanValues_trim (vs : List RawValue) (v : String)
    (h : v ∈ cleanValues vs) : (jsTrim v).length ≠ 0 := by
  simp only [cleanValues, List.mem_filter] at h
  have h2 := h.2
  simp only [decide_eq_true_eq] at h2
  omega

/-- collectHint with values that clean away is the identity. -/
theorem collectHint_empty (hints : HintsMap) (nt fk lbl : String)
    (vs : List RawValue) (note : Option String) (h : cleanValues vs = []) :
    collectHint hints nt fk lbl vs note = hints := by
  simp [collectHint, h]

/-- collectHint leaves every other key unchanged. -/
theorem lookupHint_collectHint_other (hints : HintsMap) (nt fk lbl : String)
    (vs : List RawValue) (note : Option String) (k : HintKey)
    (hk : k ≠ (nt, fk)) :
    lookupHint (collectHint hints nt fk lbl vs note) k = lookupHint hints k := by
  by_cases hc : (cleanValues vs).isEmpty = true
  · simp [collectHint, hc]
  · simp only [collectHint, hc, Bool.false_eq_true, if_false]
    rw [lookupHint_cons, if_neg (fun e => hk e.symm)]

/-- collectHint merges cleaned values into the stored list at its own key. -/
theorem hintValues_collectHint_self (hints : HintsMap) (nt fk lbl : String)
    (vs : List RawValue) (note : Option String) :
    hintValues (collectHint hints nt fk lbl vs note) (nt, fk) =
      if cleanValues vs = [] then hintValues hints (nt, fk)
      else dedupFirst (hintValues hints (nt, fk) ++ cleanValues vs) := by
  by_cases hc : cleanValues vs = []
  · rw [if_pos hc, collectHint_empty _ _ _ _ _ _ hc]
  · rw [if_neg hc]
    have hne : ¬ ((cleanValues vs).isEmpty = true) := by
      simpa [List.isEmpty_iff] using hc
    simp only [collectHint, hne, Bool.false_eq_true, if_false]
    rw [hintValues, lookupHint_cons, if_pos rfl]
    simp [hintValues]

/-- collectHint keeps an existing note and otherwise stores the new one, at
its own key. -/
theorem hintNote_collectHint_self (hints : HintsMap) (nt fk lbl : String)
    (vs : List RawValue) (note : Option String) :
    hintNote (collectHint hints nt fk lbl vs note) (nt, fk) =
      if cleanValues vs = [] then hintNote hints (nt, fk)
      else optOr (hintNote hints (nt, fk)) note := by
  by_cases hc : cleanValues vs = []
  · rw [if_pos hc, collectHint_empty _ _ _ _ _ _ hc]
  · rw [if_neg hc]
    have hne : ¬ ((cleanValues vs).isEmpty = true) := by
      simpa [List.isEmpty_iff] using hc
    simp only [collectHint, hne, Bool.false_eq_true, if_false]
    rw [hintNote, lookupHint_cons, if_pos rfl]
    simp [hintNote]

/-- The empty hints map is dedup-normal. -/
theorem valuesNormal_nil : ValuesNormal [] := by
  intro k h hl
  simp [lookupHint] at hl

/-- Dedup-normal maps store dedup-fixed values lists. -/
theorem dedupFirst_hintValues (hints : HintsMap) (k : HintKey)
    (hn : ValuesNormal hints) :
    dedupFirst (hintValues hints k) = hintValues hints k := by
  cases hl : lookupHint hints k with
  | none => simp [hintValues, hl]; rfl
  | some h =>
      have : hintValues hints k = h.values := by simp [hintValues, hl]
      rw [this]
      exact hn k h hl

/-- collectHint preserves dedup-normality. -/
theorem valuesNormal_collectHint (hints : HintsMap) (nt fk lbl : String)
    (vs : List RawValue) (note : Option String) (hn : ValuesNormal hints) :
    ValuesNormal (collectHint hints nt fk lbl vs note) := by
  by_cases hc : cleanValues vs = []
  · rw [collectHint_empty _ _ _ _ _ _ hc]; exact hn
  · intro k h hl
    have hne : ¬ ((cleanValues vs).isEmpty = true) := by
      simpa [List.isEmpty_iff] using hc
    simp only [collectHint, hne, Bool.false_eq_true, if_false] at hl
    rw [lookupHint_cons] at hl
    by_cases hk : ((nt, fk) : HintKey) = k
    · rw [if_pos hk] at hl
      cases hl
      exact dedupFirst_idem _
    · rw [if_neg hk] at hl
      exact hn k h hl

/-- Replaying contributions preserves dedup-normality. -/
theorem valuesNormal_foldl (cs : List Contribution) :
    ∀ hints : HintsMap, ValuesNormal hints →
      ValuesNormal (cs.foldl applyContrib hints) := by
  induction cs with
  | nil => intro hints hn; exact hn
  | cons c rest ih =>
      intro hints hn
      simp only [List.foldl_cons]
      exact ih _ (valuesNormal_collectHint _ _ _ _ _ _ hn)

/-- Filtering contributions at a key, one step. -/
theorem contribsValuesAt_cons (c : Contribution) (cs : List Contribution)
    (k : HintKey) :
    contribsValuesAt (c :: cs) k =
      (if c.key = k then c.values else []) ++ contribsValuesAt cs k := by
  by_cases h : c.key = k
  · simp [contribsValuesAt, contribsAt, List.filter_cons, h]
  · have hb : (c.key == k) = false := beq_eq_false_iff_ne.mpr h
    simp [contribsValuesAt, contribsAt, List.filter_cons, hb, h]

/-- Filtering contributions at a key distributes over append. -/
theorem contribsValuesAt_append (a b : List Contribution) (k : HintKey) :
    contribsValuesAt (a ++ b) k = contribsValuesAt a k ++ contribsValuesAt b k := by
  simp [contribsValuesAt, contribsAt, List.filter_append]

/-- Filtering contributions at a key commutes with flatMap. -/
theorem contribsValuesAt_flatMap {α : Type} (l : List α)
    (f : α → List Contribution) (k : HintKey) :
    contribsValuesAt (l.flatMap f) k =
      l.flatMap (fun a => contribsValuesAt (f a) k) := by
  induction l with
  | nil => rfl
  | cons a as ih => simp [List.flatMap_cons, contribsValuesAt_append, ih]

/-- optOr with nothing on the right. -/
theorem optOr_none_right (a : Option String) : optOr a none = a := by
  cases a <;> rfl

/-- optOr is associative. -/
theorem optOr_assoc (a b c : Option String) :
    optOr (optOr a b) c = optOr a (optOr b c) := by
  cases a <;> rfl

/-- The first effective note, one step. -/
theorem effectiveNoteAt_cons (c : Contribution) (cs : List Contribution)
    (k : HintKey) :
    effectiveNoteAt (c :: cs) k =
      if c.key = k ∧ cleanValues c.values ≠ [] then
        optOr c.note (effectiveNoteAt cs k)
      else effectiveNoteAt cs k := by
  unfold effectiveNoteAt contribsAt
  rw [List.filter_cons]
  by_cases hk : c.key = k
  · have hbk : (c.key == k) = true := beq_iff_eq.mpr hk
    rw [if_pos hbk, List.filter_cons]
    by_cases hv : cleanValues c.values = []
    · have h1 : (!(cleanValues c.values).isEmpty) = false := by simp [hv]
      rw [if_neg (by simp [h1]), if_neg (fun hc => hc.2 hv)]
    · have h1 : (!(cleanValues c.values).isEmpty) = true := by
        simp [List.isEmpty_iff, hv]
      rw [if_pos h1, if_pos ⟨hk, hv⟩, List.findSome?_cons]
      cases c.note <;> rfl
  · have hbk : (c.key == k) = false := beq_eq_false_iff_ne.mpr hk
    rw [if_neg (by simp [hbk]), if_neg (fun hc => hk hc.1)]

/-- Replaying contributions merges each one's cleaned values into the stored
list at its key, first occurrences first. -/
theorem hintValues_foldl_applyContrib (cs : List Contribution) :
    ∀ hints : HintsMap, ∀ k : HintKey, ValuesNormal hints →
      hintValues (cs.foldl applyContrib hints) k =
        dedupFirst (hintValues hints k ++ cleanValues (contribsValuesAt cs k)) := by
  induction cs with
  | nil =>
      intro hints k hn
      simp only [List.foldl_nil, contribsValuesAt, contribsAt, List.filter_nil,
        List.flatMap_nil, cleanValues_nil, List.append_nil]
      exact (dedupFirst_hintValues hints k hn).symm
  | cons c rest ih =>
      intro hints k hn
      simp only [List.foldl_cons, contribsValuesAt_cons]
      by_cases hk : c.key = k
      · subst hk
        rw [if_pos rfl, cleanValues_append]
        by_cases hv : cleanValues c.values = []
        · have hid : applyContrib hints c = hints :=
            collectHint_empty _ _ _ _ _ _ hv
          rw [hid, ih hints c.key hn, hv, List.nil_append]
        · rw [ih (applyContrib hints c) c.key
            (valuesNormal_collectHint _ _ _ _ _ _ hn)]
          have hself : hintValues (applyContrib hints c) c.key =
              dedupFirst (hintValues hints c.key ++ cleanValues c.values) := by
            have h0 := hintValues_collectHint_self hints c.nodeType c.fieldKey
              c.label c.values c.note
            rw [if_neg hv] at h0
            exact h0
          rw [hself, dedupFirst_append_left, List.append_assoc]
      · rw [if_neg hk, List.nil_append]
        have hother : hintValues (applyContrib hints c) k = hintValues hints k := by
          simp only [applyContrib, hintValues]
          rw [lookupHint_collectHint_other _ _ _ _ _ _ _ (Ne.symm hk)]
        rw [ih (applyContrib hints c) k
          (valuesNormal_collectHint _ _ _ _ _ _ hn), hother]

/-- Replaying contributions stores the first effective note at each key. -/
theorem hintNote_foldl_applyContrib (cs : List Contribution) :
    ∀ hints : HintsMap, ∀ k : HintKey,
      hintNote (cs.foldl applyContrib hints) k =
        optOr (hintNote hints k) (effectiveNoteAt cs k) := by
  induction cs with
  | nil =>
      intro hints k
      rw [show effectiveNoteAt [] k = none from rfl, optOr_none_right]
      rfl
  | cons c rest ih =>
      intro hints k
      simp only [List.foldl_cons, effectiveNoteAt_cons]
      by_cases hk : c.key = k
      · by_cases hv : cleanValues c.values = []
        · rw [if_neg (fun hc => hc.2 hv)]
          have hid : applyContrib hints c = hints :=
            collectHint_empty _ _ _ _ _ _ hv
          rw [hid, ih]
        · rw [if_pos ⟨hk, hv⟩]
          subst hk
          rw [ih]
          have hself : hintNote (applyContrib hints c) c.key =
              optOr (hintNote hints c.key) c.note := by
            have h0 := hintNote_collectHint_self hints c.nodeType c.fieldKey
              c.label c.values c.note
            rw [if_neg hv] at h0
            exact h0
          rw [hself, optOr_assoc]
      · rw [if_neg (fun hc => hk hc.1)]
        have hother : hintNote (applyContrib hints c) k = hintNote hints k := by
          simp only [applyContrib, hintNote]
          rw [lookupHint_collectHint_other _ _ _ _ _ _ _ (Ne.symm hk)]
        rw [ih, hother]

/-- processMessage is the replay of the contributions of one message. -/
theorem processMessage_eq (hints : HintsMap) (m : ExpectedMessage) :
    processMessage hints m = (msgContribs m).foldl applyContrib hints := by
  by_cases hs : m.channel = "sms"
  · have he : (m.channel == "email") = false := by rw [hs]; rfl
    have hs2 : (m.channel == "sms") = true := beq_iff_eq.mpr hs
    simp [processMessage, msgContribs, hs2, he, applyContrib]
  · have hs2 : (m.channel == "sms") = false := beq_eq_false_iff_ne.mpr hs
    by_cases he : m.channel = "email"
    · have he2 : (m.channel == "email") = true := beq_iff_eq.mpr he
      simp [processMessage, msgContribs, hs2, he2, applyContrib]
    · have he2 : (m.channel == "email") = false := beq_eq_false_iff_ne.mpr he
      simp [processMessage, msgContribs, hs2, he2, applyContrib]

/-- The messages fold is the replay of all message contributions. -/
theorem foldl_processMessage (msgs : List ExpectedMessage) :
    ∀ hints : HintsMap,
      msgs.foldl processMessage hints =
        (msgs.flatMap msgContribs).foldl applyContrib hints := by
  induction msgs with
  | nil => intro hints; rfl
  | cons m ms ih =>
      intro hints
      simp only [List.foldl_cons, List.flatMap_cons, List.foldl_append,
        processMessage_eq, ih]

/-- The skip-on-empty guard around one collectHint call is redundant:
collectHint ignores values that clean away. -/
theorem guarded_collect {α : Type} (h : HintsMap) (l : List α) (f : α → RawValue)
    (nt fk lbl : String) (note : Option String) :
    (if l.length != 0 then collectHint h nt fk lbl (l.map f) note else h) =
      collectHint h nt fk lbl (l.map f) note := by
  by_cases hl : l = []
  · subst hl
    rw [collectHint_empty h nt fk lbl (List.map f []) note rfl]
    simp
  · have hlen : (l.length != 0) = true := by
      simp [bne_iff_ne, List.length_eq_zero, hl]
    rw [if_pos hlen]

/-- The skip-on-empty guard around the two fieldsEqual collectHint calls is
redundant for the same reason. -/
theorem guarded_collect2 {α : Type} (h : HintsMap) (l : List α)
    (f1 f2 : α → RawValue) (nt1 fk1 lbl1 nt2 fk2 lbl2 : String)
    (n1 n2 : Option String) :
    (if l.length != 0 then
        collectHint (collectHint h nt1 fk1 lbl1 (l.map f1) n1)
          nt2 fk2 lbl2 (l.map f2) n2
      else h) =
      collectHint (collectHint h nt1 fk1 lbl1 (l.map f1) n1)
        nt2 fk2 lbl2 (l.map f2) n2 := by
  by_cases hl : l = []
  · subst hl
    rw [collectHint_empty h nt1 fk1 lbl1 (List.map f1 []) n1 rfl]
    rw [collectHint_empty h nt2 fk2 lbl2 (List.map f2 []) n2 rfl]
    simp
  · have hlen : (l.length != 0) = true := by
      simp [bne_iff_ne, List.length_eq_zero, hl]
    rw [if_pos hlen]

/-- The skip-on-empty guard around a fold is redundant: the fold over an empty
list is the identity. -/
theorem guarded_foldl {α β : Type} (h : β) (l : List α) (g : β → α → β) :
    (if l.length != 0 then l.foldl g h else h) = l.foldl g h := by
  by_cases hl : l = []
  · subst hl; simp
  · have hlen : (l.length != 0) = true := by
      simp [bne_iff_ne, List.length_eq_zero, hl]
    rw [if_pos hlen]

/-- processTestCase is the replay of the contributions of one test case. -/
theorem processTestCase_eq_contribs (hints : HintsMap) (tc : TestCase) :
    processTestCase hints tc = (tcContribs tc).foldl applyContrib hints := by
  simp only [processTestCase, tcContribs, guarded_collect, guarded_collect2,
    guarded_foldl, foldl_processMessage, List.foldl_append, List.foldl_cons,
    List.foldl_nil, List.foldl_map, applyContrib]

/-- The test-case fold is the replay of all contributions. -/
theorem foldl_processTestCase (tcs : List TestCase) :
    ∀ hints : HintsMap,
      tcs.foldl processTestCase hints =
        (tcs.flatMap tcContribs).foldl applyContrib hints := by
  induction tcs with
  | nil => intro hints; rfl
  | cons tc rest ih =>
      intro hints
      simp only [List.foldl_cons, List.flatMap_cons, List.foldl_append,
        processTestCase_eq_contribs, ih]

/-- buildExpectedFieldHints of a single-workflow scenario is the replay of all
test-case contributions over the empty hints object. -/
theorem buildHints_eq_contribs (s : SingleScenario) :
    buildExpectedFieldHints (some (.single s)) =
      (s.testCases.flatMap tcContribs).foldl applyContrib [] :=
  foldl_processTestCase s.testCases []

/-- Filtering the empty contribution list. -/
theorem contribsValuesAt_nil (k : HintKey) : contribsValuesAt [] k = [] := rfl

/-- Filtering then flatMapping versus flatMapping a guarded body. -/
theorem flatMap_filter_eq {α β : Type} (l : List α) (p : α → Bool)
    (f : α → List β) :
    (l.filter p).flatMap f = l.flatMap (fun a => if p a then f a else []) := by
  induction l with
  | nil => rfl
  | cons a as ih =>
      rw [List.filter_cons]
      by_cases h : p a = true <;> simp [h, ih]

/-- The message contributions aimed at the sms body key. -/
theorem msgContribs_at_sms_body (m : ExpectedMessage) :
    contribsValuesAt (msgContribs m) ("sms.send", "body") =
      (if m.channel == "sms" then m.contains.map RawValue.str else []) := by
  by_cases hs : (m.channel == "sms") <;> by_cases he : (m.channel == "email") <;>
    simp [msgContribs, hs, he, contribsValuesAt_append, contribsValuesAt_cons,
      contribsValuesAt_nil, Contribution.key]

/-- The message contributions aimed at the email body key. -/
theorem msgContribs_at_email_body (m : ExpectedMessage) :
    contribsValuesAt (msgContribs m) ("email.send", "body") =
      (if m.channel == "email" then m.contains.map RawValue.str else []) := by
  by_cases hs : (m.channel == "sms") <;> by_cases he : (m.channel == "email") <;>
    simp [msgContribs, hs, he, contribsValuesAt_append, contribsValuesAt_cons,
      contribsValuesAt_nil, Contribution.key]

/-- The message contributions aimed at the email subject key. -/
theorem msgContribs_at_email_subject (m : ExpectedMessage) :
    contribsValuesAt (msgContribs m) ("email.send", "subject") =
      (if m.channel == "email" then m.contains.map RawValue.str else []) := by
  by_cases hs : (m.channel == "sms") <;> by_cases he : (m.channel == "email") <;>
    simp [msgContribs, hs, he, contribsValuesAt_append, contribsValuesAt_cons,
      contribsValuesAt_nil, Contribution.key]

/-- Message contributions reach no key other than the three message keys. -/
theorem msgContribs_at_other (m : ExpectedMessage) (k : HintKey)
    (h1 : k ≠ ("sms.send", "body")) (h2 : k ≠ ("email.send", "body"))
    (h3 : k ≠ ("email.send", "subject")) :
    contribsValuesAt (msgContribs m) k = [] := by
  by_cases hs : (m.channel == "sms") <;> by_cases he : (m.channel == "email") <;>
    simp [msgContribs, hs, he, contribsValuesAt_append, contribsValuesAt_cons,
      contribsValuesAt_nil, Contribution.key, Ne.symm h1, Ne.symm h2, Ne.symm h3]

/-- The task contributions feed exactly the task title key. -/
theorem cva_task_group (l : List ContainsExpectation) (k : HintKey) :
    contribsValuesAt (l.map (fun task =>
      { nodeType := "task.create", fieldKey := "title", label := "Expected words"
        values := task.contains.map RawValue.str, note := none })) k =
      if (("task.create", "title") : HintKey) = k then
        l.flatMap (fun task => task.contains.map RawValue.str)
      else [] := by
  induction l with
  | nil =>
      by_cases h : (("task.create", "title") : HintKey) = k <;>
        simp [contribsValuesAt_nil, h]
  | cons a as ih =>
      by_cases h : (("task.create", "title") : HintKey) = k <;>
        simp [contribsValuesAt_cons, Contribution.key, ih, h, List.flatMap_cons]

/-- The notification contributions feed exactly the notification message
key. -/
theorem cva_notify_group (l : List ContainsExpectation) (k : HintKey) :
    contribsValuesAt (l.map (fun n =>
      { nodeType := "user.notify", fieldKey := "message", label := "Expected words"
        values := n.contains.map RawValue.str, note := none })) k =
      if (("user.notify", "message") : HintKey) = k then
        l.flatMap (fun n => n.contains.map RawValue.str)
      else [] := by
  induction l with
  | nil =>
      by_cases h : (("user.notify", "message") : HintKey) = k <;>
        simp [contribsValuesAt_nil, h]
  | cons a as ih =>
      by_cases h : (("user.notify", "message") : HintKey) = k <;>
        simp [contribsValuesAt_cons, Contribution.key, ih, h, List.flatMap_cons]

/-- The webhook contributions feed exactly the webhook url key. -/
theorem cva_webhook_group (l : List WebhookExpectation) (k : HintKey) :
    contribsValuesAt (l.map (fun w =>
      { nodeType := "webhook.send", fieldKey := "url"
        label := "Expected URL contains"
        values := w.urlContains.map RawValue.str, note := none })) k =
      if (("webhook.send", "url") : HintKey) = k then
        l.flatMap (fun w => w.urlContains.map RawValue.str)
      else [] := by
  induction l with
  | nil =>
      by_cases h : (("webhook.send", "url") : HintKey) = k <;>
        simp [contribsValuesAt_nil, h]
  | cons a as ih =>
      by_cases h : (("webhook.send", "url") : HintKey) = k <;>
        simp [contribsValuesAt_cons, Contribution.key, ih, h, List.flatMap_cons]

/-- The contributions of one test case carry, key by key, exactly the values
the specification routes there. -/
theorem contribsValuesAt_tcContribs (tc : TestCase) (k : HintKey) :
    contribsValuesAt (tcContribs tc) k = routedValues tc k := by
  by_cases h1 : k = ("sms.send", "body")
  · subst h1
    simp [tcContribs, contribsValuesAt_append, contribsValuesAt_flatMap,
      contribsValuesAt_cons, contribsValuesAt_nil, Contribution.key,
      msgContribs_at_sms_body, cva_task_group, cva_notify_group,
      cva_webhook_group, routedValues, flatMap_filter_eq, List.map_flatMap,
      apply_ite (List.map RawValue.str), List.map_nil]
  · by_cases h2 : k = ("email.send", "body")
    · subst h2
      simp [tcContribs, contribsValuesAt_append, contribsValuesAt_flatMap,
        contribsValuesAt_cons, contribsValuesAt_nil, Contribution.key,
        msgContribs_at_email_body, cva_task_group, cva_notify_group,
        cva_webhook_group, routedValues, flatMap_filter_eq, List.map_flatMap,
      apply_ite (List.map RawValue.str), List.map_nil]
    · by_cases h3 : k = ("email.send", "subject")
      · subst h3
        simp [tcContribs, contribsValuesAt_append, contribsValuesAt_flatMap,
          contribsValuesAt_cons, contribsValuesAt_nil, Contribution.key,
          msgContribs_at_email_subject, cva_task_group, cva_notify_group,
          cva_webhook_group, routedValues, flatMap_filter_eq, List.map_flatMap,
      apply_ite (List.map RawValue.str), List.map_nil]
      · by_cases h4 : k = ("tag.add", "tag")
        · subst h4
          simp [tcContribs, contribsValuesAt_append, contribsValuesAt_flatMap,
            contribsValuesAt_cons, contribsValuesAt_nil, Contribution.key,
            msgContribs_at_other, cva_task_group, cva_notify_group,
            cva_webhook_group, routedValues]
        · by_cases h5 : k = ("tag.remove", "tag")
          · subst h5
            simp [tcContribs, contribsValuesAt_append, contribsValuesAt_flatMap,
              contribsValuesAt_cons, contribsValuesAt_nil, Contribution.key,
              msgContribs_at_other, cva_task_group, cva_notify_group,
              cva_webhook_group, routedValues]
          · by_cases h6 : k = ("field.update", "fieldKey")
            · subst h6
              simp [tcContribs, contribsValuesAt_append, contribsValuesAt_flatMap,
                contribsValuesAt_cons, contribsValuesAt_nil, Contribution.key,
                msgContribs_at_other, cva_task_group, cva_notify_group,
                cva_webhook_group, routedValues]
            · by_cases h7 : k = ("field.update", "value")
              · subst h7
                simp [tcContribs, contribsValuesAt_append,
                  contribsValuesAt_flatMap, contribsValuesAt_cons,
                  contribsValuesAt_nil, Contribution.key, msgContribs_at_other,
                  cva_task_group, cva_notify_group, cva_webhook_group,
                  routedValues]
              · by_cases h8 : k = ("task.create", "title")
                · subst h8
                  simp [tcContribs, contribsValuesAt_append,
                    contribsValuesAt_flatMap, contribsValuesAt_cons,
                    contribsValuesAt_nil, Contribution.key, msgContribs_at_other,
                    cva_task_group, cva_notify_group, cva_webhook_group,
                    routedValues, List.flatMap_append, List.map_flatMap]
                · by_cases h9 : k = ("user.notify", "message")
                  · subst h9
                    simp [tcContribs, contribsValuesAt_append,
                      contribsValuesAt_flatMap, contribsValuesAt_cons,
                      contribsValuesAt_nil, Contribution.key,
                      msgContribs_at_other, cva_task_group, cva_notify_group,
                      cva_webhook_group, routedValues, List.flatMap_append,
                      List.map_flatMap]
                  · by_cases h10 : k = ("webhook.send", "url")
                    · subst h10
                      simp [tcContribs, contribsValuesAt_append,
                        contribsValuesAt_flatMap, contribsValuesAt_cons,
                        contribsValuesAt_nil, Contribution.key,
                        msgContribs_at_other, cva_task_group, cva_notify_group,
                        cva_webhook_group, routedValues, List.map_flatMap]
                    · simp [tcContribs, contribsValuesAt_append,
                        contribsValuesAt_flatMap, contribsValuesAt_cons,
                        contribsValuesAt_nil, Contribution.key,
                        msgContribs_at_other _ _ h1 h2 h3,
                        cva_task_group, cva_notify_group, cva_webhook_group,
                        routedValues, h1, h2, h3, h4, h5, h6, h7, h8, h9, h10,
                        Ne.symm h4, Ne.symm h5, Ne.symm h6, Ne.symm h7,
                        Ne.symm h8, Ne.symm h9, Ne.symm h10]

/-- Folding the default-record writes over a manifest: a manifest id reads the
default record, any other id falls through to the accumulator. -/
theorem lookup_foldl_default (manifest : List ModuleManifestEntry)
    (acc : ProgressModules) (id : String) :
    lookupModule
      (manifest.foldl
        (fun modules entry => (entry.moduleId, defaultModuleProgress) :: modules)
        acc) id
    = if manifest.any (fun e => e.moduleId == id) then some defaultModuleProgress
      else lookupModule acc id := by
  induction manifest generalizing acc with
  | nil => simp
  | cons e es ih =>
      simp only [List.foldl_cons, List.any_cons, ih, lookupModule_cons]
      by_cases h : e.moduleId = id <;>
        by_cases h2 : es.any (fun x => x.moduleId == id) = true <;>
          simp [h, h2]

/-- Folding the merge writes over a manifest: a manifest id that has a saved
record reads the merged record, everything else falls through to the
accumulator. -/
theorem lookup_foldl_merge
    (savedModules : Option (List (String × SavedModuleProgress)))
    (baseline : ProgressModules) (manifest : List ModuleManifestEntry)
    (acc : ProgressModules) (id : String) :
    lookupModule
      (manifest.foldl (fun merged entry =>
        match lookupSavedModule savedModules entry.moduleId with
        | none => merged
        | some savedModule =>
            (entry.moduleId,
              mergeSavedModule
                ((lookupModule baseline entry.moduleId).getD defaultModuleProgress)
                savedModule) :: merged) acc) id
    = if manifest.any (fun e => e.moduleId == id) = true
          ∧ (lookupSavedModule savedModules id).isSome = true
      then (lookupSavedModule savedModules id).map
            (mergeSavedModule ((lookupModule baseline id).getD defaultModuleProgress))
      else lookupModule acc id := by
  induction manifest generalizing acc with
  | nil => simp
  | cons e es ih =>
      simp only [List.foldl_cons, List.any_cons]
      by_cases h : e.moduleId = id
      · subst h
        cases hs : lookupSavedModule savedModules e.moduleId with
        | none => simp [ih, hs]
        | some sm => simp [ih, hs, lookupModule_cons]
      · cases hs : lookupSavedModule savedModules e.moduleId with
        | none => simp [ih, hs, h]
        | some sm =>
            have hne : e.moduleId ≠ id := h
            simp [ih, hs, h, lookupModule_cons, hne]

/-- C8: mergeProgress keeps exactly the manifest module ids (saved entries for
other modules are dropped), gives the default record to manifest modules
without a saved record, and replaces a saved locked status by available. -/
theorem mergeProgress_spec (manifest : List ModuleManifestEntry)
    (saved : Option SavedProgressState) :
    (∀ id, (lookupModule (mergeProgress manifest saved) id).isSome
        = manifest.any (fun e => e.moduleId == id))
    ∧ (∀ id, (∃ e ∈ manifest, e.moduleId = id) → lookupSavedEntry saved id = none →
        lookupModule (mergeProgress manifest saved) id = some defaultModuleProgress)
    ∧ (∀ id sm, (∃ e ∈ manifest, e.moduleId = id) →
        lookupSavedEntry saved id = some sm → sm.status = some .locked →
        (lookupModule (mergeProgress manifest saved) id).map (·.status) =
          some .available) := by
  cases saved with
  | none =>
      refine ⟨fun id => ?_, fun id hmem _ => ?_, fun id sm hmem hsm _ => ?_⟩
      · rw [show mergeProgress manifest none = buildDefaultProgress manifest from rfl,
          buildDefaultProgress, lookup_foldl_default]
        by_cases h : manifest.any (fun e => e.moduleId == id) = true <;>
          simp [h, lookupModule]
      · have hany : manifest.any (fun e => e.moduleId == id) = true := by
          simp only [List.any_eq_true, beq_iff_eq]; exact hmem
        rw [show mergeProgress manifest none = buildDefaultProgress manifest from rfl,
          buildDefaultProgress, lookup_foldl_default, if_pos hany]
      · exact absurd hsm (by simp [lookupSavedEntry])
  | some s =>
      have hmerge : mergeProgress manifest (some s) =
          manifest.foldl (fun merged entry =>
            match lookupSavedModule s.modules entry.moduleId with
            | none => merged
            | some savedModule =>
                (entry.moduleId,
                  mergeSavedModule
                    ((lookupModule (buildDefaultProgress manifest) entry.moduleId).getD
                      defaultModuleProgress)
                    savedModule) :: merged) (buildDefaultProgress manifest) := rfl
      have hbase : ∀ id, lookupModule (buildDefaultProgress manifest) id =
          if manifest.any (fun e => e.moduleId == id) then some defaultModuleProgress
          else none := by
        intro id
        rw [buildDefaultProgress, lookup_foldl_default]
        by_cases h : manifest.any (fun e => e.moduleId == id) = true <;>
          simp [h, lookupModule]
      refine ⟨fun id => ?_, fun id hmem hsaved => ?_, fun id sm hmem hsaved hsm => ?_⟩
      · rw [hmerge, lookup_foldl_merge]
        by_cases h1 : manifest.any (fun e => e.moduleId == id) = true
        · by_cases h2 : (lookupSavedModule s.modules id).isSome = true
          · rw [if_pos ⟨h1, h2⟩, h1]
            cases hs : lookupSavedModule s.modules id with
            | none => rw [hs] at h2; simp at h2
            | some sm => simp
          · rw [if_neg (fun hc => h2 hc.2), hbase, if_pos h1, h1]
            simp
        · have h1' : manifest.any (fun e => e.moduleId == id) = false := by
            simpa using h1
          rw [if_neg (fun hc => h1 hc.1), hbase]
          rw [if_neg (by simp [h1'])]
          simp [h1']
      · have hany : manifest.any (fun e => e.moduleId == id) = true := by
          simp only [List.any_eq_true, beq_iff_eq]; exact hmem
        have hnone : lookupSavedModule s.modules id = none := hsaved
        rw [hmerge, lookup_foldl_merge, if_neg (by rw [hnone]; exact fun hc => by simp at hc),
          hbase, if_pos hany]
      · have hany : manifest.any (fun e => e.moduleId == id) = true := by
          simp only [List.any_eq_true, beq_iff_eq]; exact hmem
        have hsome : lookupSavedModule s.modules id = some sm := hsaved
        rw [hmerge, lookup_foldl_merge, if_pos ⟨hany, by rw [hsome]; rfl⟩, hsome]
        simp [mergeSavedModule, hsm]

/-- Witness for C8: a manifest module with no saved record reads the default
record, and a saved locked module reads back as available. -/
theorem mergeProgress_spec_witness :
    lookupModule (mergeProgress demoManifest (some demoSavedState)) "m2" =
      some defaultModuleProgress
    ∧ (lookupModule (mergeProgress demoManifest (some demoSavedState)) "m1").map
        (·.status) = some .available :=
  ⟨(mergeProgress_spec demoManifest (some demoSavedState)).2.1 "m2"
      (by decide) (by decide),
   (mergeProgress_spec demoManifest (some demoSavedState)).2.2 "m1"
      { status := some .locked
        attempts := some { validate := 3, simulate := 1 }
        teachBack := some "notes" }
      (by decide) (by decide) rfl⟩

/-- C9 counterexample: with moduleId m1 absent from the progress state but
present in the manifest order, markCompleted still unlocks the following
module m2, so the state does not stay unchanged. -/
theorem markCompleted_absent_changes_state :
    lookupModule demoModulesLockedNext "m1" = none
    ∧ lookupModule (markCompleted demoOrder demoModulesLockedNext "m1") "m2"
        ≠ lookupModule demoModulesLockedNext "m2" := by decide

/-- C9 amended: markCompleted completes the touched module when present, then
unlocks the manifest successor of the moduleId (locked becomes available,
anything else stays) even when the moduleId itself is absent from the state;
no other module changes, and with a moduleId absent from both the state and
the manifest order the state is unchanged. -/
theorem markCompleted_spec (moduleOrder : List String) (modules : ProgressModules)
    (id : String) :
    (∀ p, lookupModule modules id = some p →
      lookupModule (markCompleted moduleOrder modules id) id =
        some { p with status := .completed })
    ∧ (∀ other, other ≠ id → successorOf moduleOrder id ≠ some other →
        lookupModule (markCompleted moduleOrder modules id) other =
          lookupModule modules other)
    ∧ (∀ nxt q, successorOf moduleOrder id = some nxt → nxt ≠ id →
        lookupModule modules nxt = some q →
        lookupModule (markCompleted moduleOrder modules id) nxt =
          some (if q.status = .locked then { q with status := .available } else q))
    ∧ (lookupModule modules id = none → id ∉ moduleOrder →
        markCompleted moduleOrder modules id = modules) := by
  have hmc : markCompleted moduleOrder modules id =
      (if moduleOrder.indexOf id < moduleOrder.length - 1 then
        match moduleOrder[moduleOrder.indexOf id + 1]? with
        | some nextId =>
            unlockModule
              (updateModule modules id (fun current => { current with status := .completed }))
              nextId
        | none => updateModule modules id (fun current => { current with status := .completed })
      else updateModule modules id (fun current => { current with status := .completed })) := rfl
  have hsucc : successorOf moduleOrder id =
      (if moduleOrder.indexOf id < moduleOrder.length - 1
        then moduleOrder[moduleOrder.indexOf id + 1]? else none) := rfl
  refine ⟨?_, ?_, ?_, ?_⟩
  · intro p hp
    have h1 : lookupModule
        (updateModule modules id (fun current => { current with status := .completed })) id =
        some { p with status := .completed } :=
      lookupModule_updateModule_self _ _ _ _ hp
    rw [hmc]
    by_cases hg : moduleOrder.indexOf id < moduleOrder.length - 1
    · rw [if_pos hg]
      cases hnext : moduleOrder[moduleOrder.indexOf id + 1]? with
      | none => exact h1
      | some nextId =>
          by_cases hni : nextId = id
          · subst hni
            rw [lookupModule_unlockModule_self _ _ _ h1]
            simp
          · rw [lookupModule_unlockModule_other _ nextId id (fun e => hni e.symm)]
            exact h1
    · rw [if_neg hg]; exact h1
  · intro other ho hs
    have h1 : lookupModule
        (updateModule modules id (fun current => { current with status := .completed })) other =
        lookupModule modules other :=
      lookupModule_updateModule_other _ _ _ _ ho
    rw [hmc]
    by_cases hg : moduleOrder.indexOf id < moduleOrder.length - 1
    · rw [if_pos hg]
      cases hnext : moduleOrder[moduleOrder.indexOf id + 1]? with
      | none => exact h1
      | some nextId =>
          have hno : other ≠ nextId := by
            intro e
            apply hs
            rw [hsucc, if_pos hg, hnext, e]
          rw [lookupModule_unlockModule_other _ nextId other hno]
          exact h1
    · rw [if_neg hg]; exact h1
  · intro nxt q hsn hni hq
    rw [hsucc] at hsn
    by_cases hg : moduleOrder.indexOf id < moduleOrder.length - 1
    · rw [if_pos hg] at hsn
      rw [hmc, if_pos hg, hsn]
      have hq1 : lookupModule
          (updateModule modules id (fun current => { current with status := .completed })) nxt =
          some q :=
        (lookupModule_updateModule_other _ _ _ _ hni).trans hq
      exact lookupModule_unlockModule_self _ _ _ hq1
    · rw [if_neg hg] at hsn
      exact absurd hsn (by simp)
  · intro hnone hmem
    have hidx : moduleOrder.indexOf id = moduleOrder.length := by
      exact List.indexOf_eq_length.mpr hmem
    rw [hmc, updateModule_absent _ _ _ hnone, hidx]
    have hlt : ¬ (moduleOrder.length < moduleOrder.length - 1) := by omega
    rw [if_neg hlt]

/-- Witness for C9 at a concrete state: the present module m1 is completed. -/
theorem markCompleted_spec_witness :
    lookupModule (markCompleted demoOrder demoProgressState "m1") "m1" =
      some { status := .completed
             attempts := { validate := 2, simulate := 5 }
             teachBack := "draft" } := by
  have h := (markCompleted_spec demoOrder demoProgressState "m1").1
    { status := .available
      attempts := { validate := 2, simulate := 5 }
      teachBack := "draft" }
    (by decide)
  simpa using h

/-- C10: markValidateAttempt and markSimulateAttempt each bump exactly their
own counter of the touched module, keeping its status, teach-back text and
the other counter, and leave every other module unchanged. -/
theorem markAttempt_spec (modules : ProgressModules) (id : String)
    (p : ModuleProgress) (h : lookupModule modules id = some p) :
    lookupModule (markValidateAttempt modules id) id =
      some { p with attempts := { p.attempts with validate := p.attempts.validate + 1 } }
    ∧ lookupModule (markSimulateAttempt modules id) id =
      some { p with attempts := { p.attempts with simulate := p.attempts.simulate + 1 } }
    ∧ (∀ other, other ≠ id →
        lookupModule (markValidateAttempt modules id) other = lookupModule modules other
        ∧ lookupModule (markSimulateAttempt modules id) other = lookupModule modules other) := by
  refine ⟨?_, ?_, fun other ho => ⟨?_, ?_⟩⟩
  · exact lookupModule_updateModule_self modules id _ p h
  · exact lookupModule_updateModule_self modules id _ p h
  · exact lookupModule_updateModule_other modules id _ other ho
  · exact lookupModule_updateModule_other modules id _ other ho

/-- Witness for C10 at a concrete state: the validate counter moves from 2 to
3 while everything else stays. -/
theorem markAttempt_spec_witness :
    lookupModule (markValidateAttempt demoProgressState "m1") "m1" =
      some { status := .available
             attempts := { validate := 3, simulate := 5 }
             teachBack := "draft" } := by
  have h := markAttempt_spec demoProgressState "m1"
    { status := .available
      attempts := { validate := 2, simulate := 5 }
      teachBack := "draft" }
    (by decide)
  simpa using h.1

/-- The comparison passes exactly when every expected assertion matches some
trace record. -/
theorem compareOutcomes_passed_iff (trace : List EffectRecord)
    (expected : List ExpectedAssertion) :
    (compareOutcomes trace expected).passed = true ↔
      ∀ a ∈ expected, ∃ r ∈ trace, assertionMatches a r = true := by
  simp [compareOutcomes, List.all_eq_true, List.any_eq_true]

/-- C7: the comparison passes iff every expected assertion matches at least
one trace record of the correct kind; effect records present in the trace
that match no expected assertion never turn a passing comparison into a
failing one. -/
theorem compareOutcomes_spec (trace : List EffectRecord)
    (expected : List ExpectedAssertion) :
    ((compareOutcomes trace expected).passed = true ↔
      ∀ a ∈ expected, ∃ r ∈ trace, assertionMatches a r = true)
    ∧ (∀ extra, (compareOutcomes trace expected).passed = true →
        (compareOutcomes (trace ++ extra) expected).passed = true) := by
  refine ⟨compareOutcomes_passed_iff trace expected, fun extra hp => ?_⟩
  rw [compareOutcomes_passed_iff] at hp ⊢
  intro a ha
  obtain ⟨r, hr, hm⟩ := hp a ha
  exact ⟨r, List.mem_append_left _ hr, hm⟩

/-- Witness for C7: the demo comparison passes, and keeps passing with an
unexpected extra effect appended to the trace. -/
theorem compareOutcomes_spec_witness :
    (compareOutcomes (demoTrace ++ demoExtraTrace) demoExpected).passed = true :=
  (compareOutcomes_spec demoTrace demoExpected).2 demoExtraTrace (by decide)

/-- C3: buildExpectedFieldHints returns the empty hint map for a missing
scenario or a multi-workflow bundle; for a single-workflow scenario the
values stored under each node-type/field-key pair are exactly the cleaned,
first-occurrence-deduplicated values the catalogued routing sends there from
the test cases, and every pair outside the routing table stays empty. -/
theorem buildExpectedFieldHints_spec :
    (buildExpectedFieldHints none = [])
    ∧ (∀ b, buildExpectedFieldHints (some (.bundle b)) = [])
    ∧ (∀ s : SingleScenario, ∀ k : HintKey,
        hintValues (buildExpectedFieldHints (some (.single s))) k =
          dedupFirst (cleanValues
            (s.testCases.flatMap (fun tc => routedValues tc k)))) := by
  refine ⟨rfl, fun _ => rfl, fun s k => ?_⟩
  rw [buildHints_eq_contribs,
    hintValues_foldl_applyContrib _ [] k valuesNormal_nil,
    show hintValues [] k = [] from rfl, List.nil_append,
    contribsValuesAt_flatMap]
  simp only [contribsValuesAt_tcContribs]

/-- C6: every hint stored by buildExpectedFieldHints has duplicate-free
values, none of which trims to the empty string, and its note is the note of
the first effective contribution aimed at its key. -/
theorem expectedFieldHints_invariant (s : SingleScenario) (k : HintKey)
    (h : ExpectedFieldHint)
    (hl : lookupHint (buildExpectedFieldHints (some (.single s))) k = some h) :
    h.values.Nodup
    ∧ (∀ v ∈ h.values, (jsTrim v).length ≠ 0)
    ∧ h.note = effectiveNoteAt (s.testCases.flatMap tcContribs) k := by
  have hveq : h.values = dedupFirst (cleanValues
      (contribsValuesAt (s.testCases.flatMap tcContribs) k)) := by
    have hv : h.values =
        hintValues (buildExpectedFieldHints (some (.single s))) k := by
      simp [hintValues, hl]
    rw [hv, buildHints_eq_contribs,
      hintValues_foldl_applyContrib _ [] k valuesNormal_nil,
      show hintValues [] k = [] from rfl, List.nil_append]
  refine ⟨?_, ?_, ?_⟩
  · rw [hveq]; exact dedupFirst_nodup _
  · intro v hvmem
    rw [hveq, mem_dedupFirst] at hvmem
    exact mem_cleanValues_trim _ _ hvmem
  · have hn : h.note =
        hintNote (buildExpectedFieldHints (some (.single s))) k := by
      simp [hintNote, hl]
    rw [hn, buildHints_eq_contribs,
      hintNote_foldl_applyContrib _ [] k,
      show hintNote [] k = none from rfl]
    rfl

/-- Witness for C6 at the demo scenario: the sms body hint built from the two
demo test cases has deduplicated Welcome values and keeps the first note. -/
theorem expectedFieldHints_invariant_witness :
    demoSmsHint.values.Nodup
    ∧ demoSmsHint.note =
        effectiveNoteAt (demoHintScenario.testCases.flatMap tcContribs)
          ("sms.send", "body") :=
  ⟨(expectedFieldHints_invariant demoHintScenario ("sms.send", "body")
      demoSmsHint (by decide)).1,
   (expectedFieldHints_invariant demoHintScenario ("sms.send", "body")
      demoSmsHint (by decide)).2.2⟩

/-- C1: isFieldMissing is true exactly on undefined, null, and strings that
trim to the empty string; in particular the number 0 and the boolean false
count as present. -/
theorem isFieldMissing_spec :
    (∀ v : RawValue, isFieldMissing v = true ↔
      (v = .undefV ∨ v = .nullV ∨ ∃ s, v = .str s ∧ (jsTrim s).length = 0))
    ∧ isFieldMissing (.num 0) = false ∧ isFieldMissing (.boolV false) = false := by
  refine ⟨fun v => ?_, rfl, rfl⟩
  cases v <;> simp [isFieldMissing]

/-- C2: formatRequirementSummary totally dispatches on the requirement kind,
returning the catalogued summary for each of the ten kinds and the generic
string "Requirement" for a requirement of any other kind. -/
theorem formatRequirementSummary_spec (gdn : String → String) :
    (∀ t, formatRequirementSummary gdn (.triggerIs t) = "Trigger is " ++ gdn t)
    ∧ (∀ f v, formatRequirementSummary gdn (.triggerConfigEquals f v) =
        "Trigger field " ++ f ++ " equals " ++ rawToString v)
    ∧ (∀ t, formatRequirementSummary gdn (.mustHaveNode t) = "Includes " ++ gdn t)
    ∧ (∀ t, formatRequirementSummary gdn (.forbidNodeType t) = "Does not include " ++ gdn t)
    ∧ (∀ nt fs, formatRequirementSummary gdn (.nodeConfigRequired nt fs) =
        gdn nt ++ " has " ++ String.intercalate ", " fs)
    ∧ (∀ seq, formatRequirementSummary gdn (.nodeOrder seq) =
        "Order: " ++ String.intercalate " -> " (seq.map gdn))
    ∧ (∀ mc, formatRequirementSummary gdn (.mustContainIfElse mc) =
        "Has at least " ++ toString (mc.getD 1) ++ " If/Else step")
    ∧ (∀ c, formatRequirementSummary gdn (.branchCountAtLeast c) =
        "If/Else has at least " ++ toString c ++ " paths")
    ∧ (∀ ts, formatRequirementSummary gdn (.pathMustInclude ts) =
        "Includes " ++ String.intercalate ", " (ts.map gdn))
    ∧ (formatRequirementSummary gdn .requireStopPath =
        "Each path ends when there are no more steps")
    ∧ (∀ r : Requirement, r.typeName ∉ catalogTags →
        formatRequirementSummary gdn r = "Requirement") := by
  refine ⟨fun _ => rfl, fun _ _ => rfl, fun _ => rfl, fun _ => rfl, fun _ _ => rfl,
    fun _ => rfl, fun _ => rfl, fun _ => rfl, fun _ => rfl, rfl, fun r h => ?_⟩
  cases r <;> first
    | rfl
    | (exact absurd (by simp [Requirement.typeName, catalogTags]) h)

/-- Witness for C2: a requirement with an uncatalogued kind gets the generic
summary. -/
theorem formatRequirementSummary_spec_witness :
    formatRequirementSummary id (.unknownKind "mystery") = "Requirement" :=
  (formatRequirementSummary_spec id).2.2.2.2.2.2.2.2.2.2
    (Requirement.unknownKind "mystery") (by decide)

/-- C5 counterexample: singleTriggerMode is disabled on a single-workflow
scenario whose requirements contain no triggerIs requirement, so it is not
enabled for every single-workflow scenario. -/
theorem singleTriggerMode_not_always_on_single :
    singleTriggerMode (some (.single scenarioNoTriggerReq)) = false := by rfl

/-- C5 amended: singleTriggerMode is enabled on a single-workflow scenario
exactly when some requirement has type triggerIs, and is disabled for
bundles and when no scenario is supplied. -/
theorem singleTriggerMode_spec :
    (singleTriggerMode none = false)
    ∧ (∀ b, singleTriggerMode (some (.bundle b)) = false)
    ∧ (∀ s, singleTriggerMode (some (.single s)) = true ↔
        ∃ r ∈ s.requirements, r.typeName = "triggerIs") := by
  refine ⟨rfl, fun _ => rfl, fun s => ?_⟩
  simp [singleTriggerMode, List.any_eq_true]

end Ghl
